import Mathlib

/-!
Verification of the RAG Gmail question-answering pipeline.

The development gives a shallow embedding of the retrieval-augmented
generation core of the repository:

* `src/rag_core/generate_answer.py` — prompt assembly (`build_prompt`),
  context-block rendering, the truncation loop, and the orchestrating
  `generate_answer` function;
* `src/llm/providers.py` — the provider factory `get_llm_provider`;
* `src/email_ingest/fetch_email.py` — the recursive plain-text body
  extraction `extract_email_body`;
* `src/config/settings.py` — the constants `MAX_CONTEXT_LENGTH` and
  `TOP_K_RESULTS`.

External collaborators (the Pinecone index, the embedder, the Ollama HTTP
call, base64 decoding and the regex cleaner) are modelled as parameters:
the list of matches returned by the index is an input, the generator is a
function argument `gen`, and the composition of base64 decoding with
`clean_text` is a function argument `decodeClean`.
-/

namespace RAGGmail

/-- Constant `MAX_CONTEXT_LENGTH` from `src/config/settings.py` (hard-coded 3000). -/
def MAX_CONTEXT_LENGTH : Nat := 3000

/-- Constant `TOP_K_RESULTS` from `src/config/settings.py`. -/
def TOP_K_RESULTS : Nat := 5

/-- The metadata mapping carried by an index record.  The recognized string
keys of the Python dict become optional fields; a `none` field models an
absent key (the Python code reads them with `dict.get` and a default). -/
structure Metadata where
  subject : Option String
  from_ : Option String
  date : Option String
  snippet : Option String
  body_preview : Option String
deriving DecidableEq

/-- A similarity match returned by the vector index: `{id, score, metadata}`.
The score is only carried through, never computed with, so its Python float
type is modelled by `Int`. -/
structure Match where
  id : String
  score : Int
  metadata : Metadata
deriving DecidableEq

/-- A source entry of the answer, as assembled in `generate_answer`
(lines 90-97 of `src/rag_core/generate_answer.py`). -/
structure Source where
  id : String
  score : Int
  subject : String
  from_ : String
  date : String
  snippet : String
deriving DecidableEq

/-- Python truthiness-based `a or b` on an optional string `a`:
`None or b = b`, `"" or b = b`, otherwise `a`. -/
def pyOr (a : Option String) (b : String) : String :=
  match a with
  | some s => if s = "" then b else s
  | none => b

/-- Function `build_prompt` from `src/rag_core/generate_answer.py`, lines 23-33. -/
def build_prompt (question : String) (email_snippets : List String) : String :=
  let context := String.intercalate "\n\n" email_snippets
  "QUESTION:\n" ++ question ++ "\n\n" ++ "CONTEXT:\n" ++ context ++ "\n\n" ++
    "Using only the CONTEXT above, answer the QUESTION as accurately and completely as possible."

/-- The context block built for one match (lines 79-85 of
`src/rag_core/generate_answer.py`). -/
def contextBlock (metadata : Metadata) : String :=
  let content := pyOr metadata.body_preview (metadata.snippet.getD "")
  "Subject: " ++ metadata.subject.getD "N/A" ++ "\n" ++
    ("From: " ++ metadata.from_.getD "N/A" ++ "\n") ++
    ("Date: " ++ metadata.date.getD "N/A" ++ "\n") ++
    ("Content: " ++ content ++ "\n")

/-- The source dict appended for one match (lines 90-97 of
`src/rag_core/generate_answer.py`). -/
def sourceOf (m : Match) : Source :=
  { id := m.id
    score := m.score
    subject := m.metadata.subject.getD "N/A"
    from_ := m.metadata.from_.getD "N/A"
    date := m.metadata.date.getD "N/A"
    snippet := m.metadata.snippet.getD "" }

/-- The single pass over the matches (lines 75-97) that accumulates
`email_contexts` and `source_emails` in match order. -/
def collectContextsSources : List Match → List String × List Source
  | [] => ([], [])
  | m :: rest =>
    let p := collectContextsSources rest
    (contextBlock m.metadata :: p.1, sourceOf m :: p.2)

/-- The local `available_context_length` of `generate_answer`
(line 105): `MAX_CONTEXT_LENGTH - len(question) - 100`, an integer that can
be negative. -/
def available_context_length (question : String) : Int :=
  (MAX_CONTEXT_LENGTH : Int) - question.length - 100

/-- The greedy truncation loop of `generate_answer` (lines 106-114):
walk the contexts in order, keep a context while the running total plus its
length stays strictly below the available budget, and stop at the first
context for which it does not. -/
def truncate_contexts (available : Int) : List String → Int → List String
  | [], _ => []
  | c :: rest, current =>
    if current + (c.length : Int) < available then
      c :: truncate_contexts available rest (current + (c.length : Int))
    else []

/-- The contexts kept by the truncation branch for a given question. -/
def truncated_contexts (question : String) (email_contexts : List String) : List String :=
  truncate_contexts (available_context_length question) email_contexts 0

/-- Lines 100-116 of `generate_answer`: build the prompt, and if its length
exceeds `MAX_CONTEXT_LENGTH` rebuild it from the greedily kept contexts. -/
def finalPrompt (question : String) (email_contexts : List String) : String :=
  let prompt := build_prompt question email_contexts
  if prompt.length > MAX_CONTEXT_LENGTH then
    build_prompt question (truncated_contexts question email_contexts)
  else
    prompt

/-- Function `generate_answer` from `src/rag_core/generate_answer.py`, lines 49-121,
from the point where the index has answered: `matchList` is the value the
Python code binds to `matches` (the result of `query_similar`), and `gen`
is the external `generate_llm_answer` call.  `matches` is a reserved word
in Lean, hence the rename. -/
def generate_answer (gen : String → String) (question : String)
    (matchList : List Match) : String × List Source :=
  if matchList.isEmpty then
    ("No relevant emails found for your question.", [])
  else
    let p := collectContextsSources matchList
    (gen (finalPrompt question p.1), p.2)

/-- Configuration forwarded by the factory to the Ollama provider
(`src/llm/providers.py`, lines 18-23): a base URL and a model name. -/
structure OllamaProvider where
  base_url : String
  model : String
deriving DecidableEq

/-- The provider implementations the factory can return.  The registry in
`get_llm_provider` holds a single entry, `ollama`. -/
inductive LLMProvider where
  | ollama : OllamaProvider → LLMProvider
deriving DecidableEq

/-- The keys of the `providers` dict of `get_llm_provider`
(`src/llm/providers.py`, lines 50-52). -/
def providers_keys : List String := ["ollama"]

/-- A single-quote character, used by the Python `repr` of a string. -/
def squote : String := String.singleton (Char.ofNat 39)

/-- The Python `str(list_of_strings)` rendering used in the factory error
message: each element in single quotes, comma-separated, in brackets. -/
def pyListRepr (xs : List String) : String :=
  "[" ++ String.intercalate ", " (xs.map (fun s => squote ++ s ++ squote)) ++ "]"

/-- Factory `get_llm_provider` from `src/llm/providers.py`, lines 48-57.  The
Python `raise ValueError(...)` becomes the `Except.error` branch carrying
the same message text. -/
def get_llm_provider (provider_name : String) (config : OllamaProvider) :
    Except String LLMProvider :=
  if provider_name ∉ providers_keys then
    .error ("Unknown provider: " ++ provider_name ++ ". Available: " ++
      pyListRepr providers_keys)
  else
    .ok (.ollama config)

/-- A Gmail message payload tree (`src/email_ingest/fetch_email.py`).  A
node carries the optional `mimeType` key, the optional `data` entry of its
`body` dict, and the optional `parts` key (present even when the list is
empty).  The tree recursion mirrors the nested `parts` dicts. -/
inductive Payload where
  | node : Option String → Option String → Option (List Payload) → Payload

/-- The `mimeType` key of a payload dict, when present. -/
def Payload.mimeType : Payload → Option String
  | .node m _ _ => m

/-- The `data` entry of the `body` dict of a payload, when present. -/
def Payload.bodyData : Payload → Option String
  | .node _ b _ => b

/-- The `parts` key of a payload dict, when present. -/
def Payload.parts : Payload → Option (List Payload)
  | .node _ _ p => p

mutual

/-- Function `extract_email_body` from `src/email_ingest/fetch_email.py`,
lines 25-48.  `decodeClean` is the external composition of
`base64.urlsafe_b64decode`, UTF-8 decoding and `clean_text` applied to the
`data` field of a part body. -/
def extract_email_body (decodeClean : String → String) : Payload → String
  | .node mimeType bodyData partsOpt =>
    match partsOpt with
    | some parts => searchParts decodeClean parts
    | none =>
      if mimeType = some "text/plain" ∧ bodyData.isSome then
        decodeClean (bodyData.getD "")
      else
        ""

/-- The `for part in payload[...]` loop inside `extract_email_body`
(lines 32-41): return the decoded first direct `text/plain` part with
data; recurse into a `multipart/*` part and return its text when that
text is non-empty; otherwise continue with the remaining parts. -/
def searchParts (decodeClean : String → String) : List Payload → String
  | [] => ""
  | part :: rest =>
    if part.mimeType = some "text/plain" ∧ part.bodyData.isSome then
      decodeClean (part.bodyData.getD "")
    else if (part.mimeType.getD "").startsWith "multipart/" then
      let text := extract_email_body decodeClean part
      if text ≠ "" then text else searchParts decodeClean rest
    else
      searchParts decodeClean rest

end

mutual

/-- Modelled from the spec: the `data` payloads of the `text/plain` leaves
that the depth-first, parts-before-multipart-recursion search of the spec
visits, in visiting order. -/
def dfsLeaves : Payload → List String
  | .node mimeType bodyData partsOpt =>
    match partsOpt with
    | some parts => dfsLeavesOfParts parts
    | none =>
      if mimeType = some "text/plain" ∧ bodyData.isSome then
        [bodyData.getD ""]
      else
        []

/-- Modelled from the spec: the leaves contributed by a list of sibling
parts, siblings in order, each direct `text/plain` leaf before any
recursion into a later `multipart/*` sibling. -/
def dfsLeavesOfParts : List Payload → List String
  | [] => []
  | part :: rest =>
    (if part.mimeType = some "text/plain" ∧ part.bodyData.isSome then
      [part.bodyData.getD ""]
    else if (part.mimeType.getD "").startsWith "multipart/" then
      dfsLeaves part
    else
      []) ++ dfsLeavesOfParts rest

end

/-- Modelled from the spec: the content of a context block is
`body_preview` if present and non-empty, else `snippet`, else the empty
string.  Stated independently of the code path (`pyOr`) so the two can be
compared. -/
def spec_content (metadata : Metadata) : String :=
  match metadata.body_preview with
  | some bp =>
    if bp ≠ "" then bp
    else
      match metadata.snippet with
      | some s => s
      | none => ""
  | none =>
    match metadata.snippet with
    | some s => s
    | none => ""

/-- A string of `n` copies of the letter a, for building large inputs. -/
def bigStr (n : Nat) : String := String.mk (List.replicate n 'a')

/-- A metadata record whose only present key is `body_preview`. -/
def mdOnlyBody (bp : String) : Metadata :=
  { subject := none, from_ := none, date := none, snippet := none,
    body_preview := some bp }

/-- A match whose context block is 2899 characters long (43 characters of
fixed template plus the preview). -/
def matchBig1 : Match :=
  { id := "m1", score := 1, metadata := mdOnlyBody (bigStr 2856) }

/-- A match whose context block is 200 characters long. -/
def matchBig2 : Match :=
  { id := "m2", score := 0, metadata := mdOnlyBody (bigStr 157) }

/-- Metadata whose context block is 1445 characters long. -/
def mdWide : Metadata := mdOnlyBody (bigStr 1402)

/-- A small fully-populated match for witnesses. -/
def mSmall : Match :=
  { id := "e1", score := 1,
    metadata :=
      { subject := some "Project meeting tomorrow", from_ := some "a@x.com",
        date := some "Mon", snippet := some "snip",
        body_preview := some "Our next meeting is tomorrow." } }

/-- A match with every metadata key absent, for the default-value witness. -/
def mEmptyMeta : Match :=
  { id := "e0", score := 0,
    metadata :=
      { subject := none, from_ := none, date := none, snippet := none,
        body_preview := none } }

/-- A decode function that cleans the body `"A"` to the empty string and
leaves everything else unchanged; realizable in the source, where the
decoded body `<p></p>` cleans to the empty string. -/
def dc0 : String → String := fun s => if s = "A" then "" else s

/-- A `text/plain` leaf part whose body data is `"A"`. -/
def pLeafA : Payload := .node (some "text/plain") (some "A") none

/-- A `text/plain` leaf part whose body data is `"B"`. -/
def pLeafB : Payload := .node (some "text/plain") (some "B") none

/-- A `multipart/alternative` part containing only the leaf `pLeafA`. -/
def pInner : Payload := .node (some "multipart/alternative") none (some [pLeafA])

/-- A `multipart/mixed` payload whose first plain-text leaf in search
order is `pLeafA` (nested) and whose second is `pLeafB` (direct). -/
def pCex : Payload := .node (some "multipart/mixed") none (some [pInner, pLeafB])

/-- A two-level payload with a single plain-text leaf, for witnesses. -/
def pW : Payload := .node (some "multipart/mixed") none (some [pLeafB])

/-- Total length of a list of strings. -/
def sumLen (cs : List String) : Nat := (cs.map String.length).sum

theorem sumLen_nil : sumLen [] = 0 := rfl

theorem sumLen_cons (c : String) (cs : List String) :
    sumLen (c :: cs) = c.length + sumLen cs := by
  simp [sumLen]

theorem intercalate_go_length (s : String) :
    ∀ (as : List String) (acc : String),
      (String.intercalate.go acc s as).length =
        acc.length + sumLen as + s.length * as.length := by
  intro as
  induction as with
  | nil => intro acc; simp [String.intercalate.go, sumLen]
  | cons a as ih =>
    intro acc
    rw [String.intercalate.go, ih, sumLen_cons]
    simp [String.length_append]
    ring

theorem intercalate_length (s a : String) (as : List String) :
    (String.intercalate s (a :: as)).length =
      a.length + sumLen as + s.length * as.length := by
  rw [String.intercalate, intercalate_go_length]

theorem build_prompt_length (q : String) (cs : List String) :
    (build_prompt q cs).length =
      q.length + (String.intercalate "\n\n" cs).length + 114 := by
  have h1 : ("QUESTION:\n" : String).length = 10 := rfl
  have h2 : ("\n\n" : String).length = 2 := rfl
  have h3 : ("CONTEXT:\n" : String).length = 9 := rfl
  have h4 : ("Using only the CONTEXT above, answer the QUESTION as accurately and completely as possible." : String).length = 91 := rfl
  simp only [build_prompt, String.length_append, h1, h2, h3, h4]
  omega

theorem build_prompt_length_cons (q a : String) (as : List String) :
    (build_prompt q (a :: as)).length =
      q.length + 114 + (a.length + sumLen as + 2 * as.length) := by
  rw [build_prompt_length, intercalate_length]
  have h2 : ("\n\n" : String).length = 2 := rfl
  rw [h2]
  omega

theorem build_prompt_length_nil (q : String) :
    (build_prompt q []).length = q.length + 114 := by
  rw [build_prompt_length]
  have : (String.intercalate "\n\n" []).length = 0 := rfl
  omega

theorem truncate_contexts_take (available : Int) (cs : List String) :
    ∀ current, truncate_contexts available cs current =
      cs.take (truncate_contexts available cs current).length := by
  induction cs with
  | nil => intro current; rfl
  | cons c rest ih =>
    intro current
    simp only [truncate_contexts]
    split
    · rw [List.length_cons, List.take_succ_cons]
      exact congrArg (c :: ·) (ih _)
    · rfl

theorem truncate_contexts_length_le (available : Int) (cs : List String)
    (current : Int) :
    (truncate_contexts available cs current).length ≤ cs.length := by
  conv_lhs => rw [truncate_contexts_take available cs current]
  rw [List.length_take]
  omega

theorem truncate_contexts_sumLen (available : Int) (cs : List String) :
    ∀ current, truncate_contexts available cs current ≠ [] →
      current + (sumLen (truncate_contexts available cs current) : Int) <
        available := by
  induction cs with
  | nil => intro current h; exact absurd rfl h
  | cons c rest ih =>
    intro current h
    simp only [truncate_contexts] at h ⊢
    split
    case isTrue hlt =>
      rw [sumLen_cons]
      rcases eq_or_ne (truncate_contexts available rest (current + (c.length : Int))) [] with h0 | h0
      · rw [h0, sumLen_nil]
        push_cast
        omega
      · have := ih (current + (c.length : Int)) h0
        push_cast at this ⊢
        omega
    case isFalse hge =>
      split at h
      · omega
      · exact absurd rfl h

theorem truncate_contexts_stop (available : Int) (cs : List String) :
    ∀ current,
      cs.drop (truncate_contexts available cs current).length = [] ∨
      available ≤ current +
        (sumLen (truncate_contexts available cs current) : Int) +
        (((cs.drop (truncate_contexts available cs current).length).headD
          "").length : Int) := by
  induction cs with
  | nil => intro current; left; rfl
  | cons c rest ih =>
    intro current
    simp only [truncate_contexts]
    split
    case isTrue hlt =>
      rw [List.length_cons, List.drop_succ_cons, sumLen_cons]
      rcases ih (current + (c.length : Int)) with h | h
      · left; exact h
      · right
        push_cast at h ⊢
        omega
    case isFalse hge =>
      right
      rw [List.length_nil, List.drop_zero, sumLen_nil]
      simp only [List.headD_cons]
      push_cast
      omega

theorem bigStr_length (n : Nat) : (bigStr n).length = n := by
  rw [bigStr, String.length_mk, List.length_replicate]

theorem bigStr_ne_empty (n : Nat) (h : 0 < n) : bigStr n ≠ "" := by
  intro he
  have hl := bigStr_length n
  rw [he] at hl
  have h0 : ("" : String).length = 0 := rfl
  omega

theorem contextBlock_mdOnlyBody_length (bp : String) (h : bp ≠ "") :
    (contextBlock (mdOnlyBody bp)).length = 43 + bp.length := by
  have h9 : ("Subject: " : String).length = 9 := rfl
  have hna : ("N/A" : String).length = 3 := rfl
  have hnl : ("\n" : String).length = 1 := rfl
  have hfr : ("From: " : String).length = 6 := rfl
  have hda : ("Date: " : String).length = 6 := rfl
  have hco : ("Content: " : String).length = 9 := rfl
  simp only [contextBlock, mdOnlyBody, pyOr, Option.getD, if_neg h,
    String.length_append, h9, hna, hnl, hfr, hda, hco]
  omega

theorem collectContextsSources_eq (l : List Match) :
    collectContextsSources l =
      (l.map (fun m => contextBlock m.metadata), l.map sourceOf) := by
  induction l with
  | nil => rfl
  | cons x xs ih => simp [collectContextsSources, ih]

/-- C1: when the vector index returns zero matches, `generate_answer`
returns exactly the sentinel string with an empty source list, and the
generator is never consulted: the result is the same constant for every
generator function. -/
theorem generate_answer_no_matches (gen gen2 : String → String)
    (question : String) :
    generate_answer gen question [] =
      ("No relevant emails found for your question.", []) ∧
    generate_answer gen question [] = generate_answer gen2 question [] :=
  ⟨rfl, rfl⟩

/-- C4: for a non-empty context list whose fully assembled prompt fits
within `MAX_CONTEXT_LENGTH`, the prompt sent onward is the unabridged
template — question section, contexts joined by a blank line, and the
fixed answer-only-from-context instruction — with no truncation. -/
theorem build_prompt_no_truncation (question : String) (cs : List String)
    (hne : cs ≠ []) (hfits : (build_prompt question cs).length ≤ MAX_CONTEXT_LENGTH) :
    finalPrompt question cs =
      "QUESTION:\n" ++ question ++ "\n\n" ++ "CONTEXT:\n" ++
        String.intercalate "\n\n" cs ++ "\n\n" ++
        "Using only the CONTEXT above, answer the QUESTION as accurately and completely as possible." := by
  simp only [finalPrompt]
  rw [if_neg (by omega)]
  rfl

theorem build_prompt_no_truncation_witness :
    (["hello"] : List String) ≠ [] ∧
    (build_prompt "q" ["hello"]).length ≤ MAX_CONTEXT_LENGTH ∧
    finalPrompt "q" ["hello"] =
      "QUESTION:\n" ++ "q" ++ "\n\n" ++ "CONTEXT:\n" ++
        String.intercalate "\n\n" ["hello"] ++ "\n\n" ++
        "Using only the CONTEXT above, answer the QUESTION as accurately and completely as possible." :=
  ⟨by decide, by decide,
    build_prompt_no_truncation "q" ["hello"] (by decide) (by decide)⟩

/-- C5: the context block of a match is the fixed-order concatenation of
the Subject, From, Date and Content lines, where the content is the
body preview when present and non-empty, else the snippet, else the empty
string, and each missing subject, from or date key renders as `N/A`. -/
theorem contextBlock_spec (m : Metadata) :
    contextBlock m =
      "Subject: " ++ m.subject.getD "N/A" ++ "\n" ++
        ("From: " ++ m.from_.getD "N/A" ++ "\n") ++
        ("Date: " ++ m.date.getD "N/A" ++ "\n") ++
        ("Content: " ++ spec_content m ++ "\n") := by
  have hc : pyOr m.body_preview (m.snippet.getD "") = spec_content m := by
    simp only [pyOr, spec_content]
    cases m.body_preview with
    | none => cases m.snippet <;> simp [Option.getD]
    | some bp =>
      by_cases h : bp = "" <;> cases m.snippet <;> simp [h, Option.getD]
  simp only [contextBlock, hc]

theorem cb1_len : (contextBlock (mdOnlyBody (bigStr 2856))).length = 2899 := by
  rw [contextBlock_mdOnlyBody_length _ (bigStr_ne_empty _ (by omega)), bigStr_length]

theorem cb2_len : (contextBlock (mdOnlyBody (bigStr 157))).length = 200 := by
  rw [contextBlock_mdOnlyBody_length _ (bigStr_ne_empty _ (by omega)), bigStr_length]

theorem cbW_len : (contextBlock mdWide).length = 1445 := by
  rw [mdWide, contextBlock_mdOnlyBody_length _ (bigStr_ne_empty _ (by omega)),
    bigStr_length]

theorem empty_length : ("" : String).length = 0 := rfl

theorem available_empty : available_context_length "" = 2900 := by
  rw [available_context_length, empty_length, MAX_CONTEXT_LENGTH]
  norm_num

/-- C2 (amended): the rebuilt prompt is not always within
`MAX_CONTEXT_LENGTH`; its length is bounded by the larger of the
empty-context prompt length (question plus the 114-character template) and
`MAX_CONTEXT_LENGTH + 11 + 2 * (number of context blocks)`, because the
truncation loop reserves only 100 characters for a template of 114
characters plus two per separator. -/
theorem finalPrompt_length_bound (q : String) (cs : List String) :
    (finalPrompt q cs).length ≤
      max (build_prompt q []).length (MAX_CONTEXT_LENGTH + 11 + 2 * cs.length) := by
  simp only [finalPrompt, truncated_contexts]
  split
  case isTrue h =>
    rcases ht : truncate_contexts (available_context_length q) cs 0 with _ | ⟨a, as⟩
    · exact le_max_left _ _
    · have hsum := truncate_contexts_sumLen (available_context_length q) cs 0
        (by rw [ht]; exact List.cons_ne_nil a as)
      have hlen := truncate_contexts_length_le (available_context_length q) cs 0
      rw [ht] at hsum hlen
      rw [build_prompt_length_cons]
      refine le_trans ?_ (le_max_right _ _)
      rw [sumLen_cons] at hsum
      simp only [available_context_length, MAX_CONTEXT_LENGTH] at hsum ⊢
      simp only [List.length_cons] at hlen
      push_cast at hsum
      omega
  case isFalse h =>
    refine le_trans ?_ (le_max_right _ _)
    simp only [MAX_CONTEXT_LENGTH] at h ⊢
    omega

theorem promptBig_length :
    (build_prompt ""
      [contextBlock (mdOnlyBody (bigStr 2856)),
       contextBlock (mdOnlyBody (bigStr 157))]).length = 3215 := by
  rw [build_prompt_length_cons, sumLen_cons, sumLen_nil, cb1_len, cb2_len,
    empty_length]
  norm_num [List.length_singleton]

theorem truncBig :
    truncate_contexts (available_context_length "")
      [contextBlock (mdOnlyBody (bigStr 2856)),
       contextBlock (mdOnlyBody (bigStr 157))] 0 =
      [contextBlock (mdOnlyBody (bigStr 2856))] := by
  rw [truncate_contexts,
    if_pos (by rw [cb1_len, available_empty]; norm_num),
    truncate_contexts,
    if_neg (by rw [cb1_len, cb2_len, available_empty]; norm_num)]

/-- C2 counterexample: with an empty question and two context blocks of
2899 and 200 characters, the assembled prompt (3215 characters) triggers
truncation, the loop keeps the first block (2899 < 2900 available), and
the rebuilt prompt sent to the generator is 3013 characters long —
exceeding `MAX_CONTEXT_LENGTH = 3000`. -/
theorem finalPrompt_length_counterexample :
    MAX_CONTEXT_LENGTH <
      ((generate_answer (fun s => s) "" [matchBig1, matchBig2]).1).length := by
  have hne : ([matchBig1, matchBig2] : List Match).isEmpty = false := rfl
  simp only [generate_answer, hne, Bool.false_eq_true, if_false,
    collectContextsSources_eq, List.map]
  show MAX_CONTEXT_LENGTH <
    (finalPrompt "" [contextBlock (mdOnlyBody (bigStr 2856)),
      contextBlock (mdOnlyBody (bigStr 157))]).length
  simp only [finalPrompt, truncated_contexts]
  rw [if_pos (by rw [promptBig_length, MAX_CONTEXT_LENGTH]; norm_num), truncBig,
    build_prompt_length_cons, sumLen_nil, cb1_len, empty_length,
    MAX_CONTEXT_LENGTH]
  norm_num

/-- C3 (amended): when the assembled prompt exceeds the budget, the
rebuilt prompt uses the greedily kept contexts; those contexts are a
prefix of the original ordered sequence — but not always a strict one:
either every context is kept (when the overflow comes from the template
overhead alone), or the loop stopped at the first context whose length
added to the running total reaches or exceeds the available budget
`MAX_CONTEXT_LENGTH - len(question) - 100`.  No context is truncated
mid-string, reordered, or included after a skipped one. -/
theorem truncated_contexts_greedy_spec (q : String) (cs : List String)
    (h : (build_prompt q cs).length > MAX_CONTEXT_LENGTH) :
    finalPrompt q cs = build_prompt q (truncated_contexts q cs) ∧
    truncated_contexts q cs = cs.take (truncated_contexts q cs).length ∧
    (truncated_contexts q cs = cs ∨
      available_context_length q ≤
        (sumLen (truncated_contexts q cs) : Int) +
          (((cs.drop (truncated_contexts q cs).length).headD "").length : Int)) := by
  refine ⟨?_, truncate_contexts_take _ _ _, ?_⟩
  · simp only [finalPrompt]
    rw [if_pos h]
  · rcases truncate_contexts_stop (available_context_length q) cs 0 with hdrop | hstop
    · left
      have htake := truncate_contexts_take (available_context_length q) cs 0
      have hge : cs.length ≤ (truncated_contexts q cs).length := by
        rw [← List.drop_eq_nil_iff]
        exact hdrop
      rw [truncated_contexts] at hge ⊢
      rw [htake] at hge ⊢
      simp only [List.length_take] at hge ⊢
      exact List.take_of_length_le (by omega)
    · right
      simpa using hstop

theorem promptWide_length :
    (build_prompt "" [contextBlock mdWide, contextBlock mdWide]).length = 3006 := by
  rw [build_prompt_length_cons, sumLen_cons, sumLen_nil, cbW_len, empty_length]
  norm_num [List.length_singleton]

theorem truncWide :
    truncate_contexts (available_context_length "")
      [contextBlock mdWide, contextBlock mdWide] 0 =
      [contextBlock mdWide, contextBlock mdWide] := by
  rw [truncate_contexts,
    if_pos (by rw [cbW_len, available_empty]; norm_num),
    truncate_contexts,
    if_pos (by rw [cbW_len, available_empty]; norm_num),
    truncate_contexts]

/-- C3 counterexample: with an empty question and two context blocks of
1445 characters each, the assembled prompt is 3006 characters, so the
truncation branch runs — yet the greedy loop keeps both blocks
(1445 < 2900 and 2890 < 2900), so the included contexts are the whole
original sequence, not a strict prefix of it. -/
theorem truncation_not_strict_counterexample :
    (build_prompt "" [contextBlock mdWide, contextBlock mdWide]).length >
      MAX_CONTEXT_LENGTH ∧
    truncated_contexts "" [contextBlock mdWide, contextBlock mdWide] =
      [contextBlock mdWide, contextBlock mdWide] :=
  ⟨by rw [promptWide_length, MAX_CONTEXT_LENGTH]; norm_num,
   by rw [truncated_contexts]; exact truncWide⟩

theorem truncated_contexts_greedy_spec_witness :
    (build_prompt "" [contextBlock mdWide, contextBlock mdWide]).length >
      MAX_CONTEXT_LENGTH ∧
    (finalPrompt "" [contextBlock mdWide, contextBlock mdWide] =
      build_prompt ""
        (truncated_contexts "" [contextBlock mdWide, contextBlock mdWide]) ∧
    truncated_contexts "" [contextBlock mdWide, contextBlock mdWide] =
      [contextBlock mdWide, contextBlock mdWide].take
        (truncated_contexts "" [contextBlock mdWide, contextBlock mdWide]).length ∧
    (truncated_contexts "" [contextBlock mdWide, contextBlock mdWide] =
        [contextBlock mdWide, contextBlock mdWide] ∨
      available_context_length "" ≤
        (sumLen (truncated_contexts "" [contextBlock mdWide, contextBlock mdWide]) : Int) +
          ((([contextBlock mdWide, contextBlock mdWide].drop
            (truncated_contexts "" [contextBlock mdWide, contextBlock mdWide]).length).headD
            "").length : Int))) :=
  ⟨by rw [promptWide_length, MAX_CONTEXT_LENGTH]; norm_num,
   truncated_contexts_greedy_spec "" [contextBlock mdWide, contextBlock mdWide]
     (by rw [promptWide_length, MAX_CONTEXT_LENGTH]; norm_num)⟩

/-- C6: the factory returns the registered implementation for every
registered provider name, and fails for every other name with the
`Unknown provider` error whose message carries the Python repr of the
registered-name list (enumerating the registered names). -/
theorem get_llm_provider_spec (name : String) (config : OllamaProvider) :
    (name ∉ providers_keys →
      get_llm_provider name config =
        .error ("Unknown provider: " ++ name ++ ". Available: " ++
          pyListRepr providers_keys)) ∧
    (name ∈ providers_keys →
      get_llm_provider name config = .ok (.ollama config)) := by
  constructor
  · intro h
    rw [get_llm_provider, if_pos h]
  · intro h
    rw [get_llm_provider, if_neg (by simp [h])]

theorem get_llm_provider_spec_witness :
    ("mistral" : String) ∉ providers_keys ∧
    ("ollama" : String) ∈ providers_keys ∧
    get_llm_provider "mistral" (OllamaProvider.mk "http://localhost:11434" "llama3.2") =
      .error ("Unknown provider: " ++ "mistral" ++ ". Available: " ++
        pyListRepr providers_keys) ∧
    get_llm_provider "ollama" (OllamaProvider.mk "http://localhost:11434" "llama3.2") =
      .ok (.ollama (OllamaProvider.mk "http://localhost:11434" "llama3.2")) :=
  ⟨by decide, by decide,
   (get_llm_provider_spec "mistral" _).1 (by decide),
   (get_llm_provider_spec "ollama" _).2 (by decide)⟩

/-- C7: for a non-empty match list, the orchestrator renders the context
blocks in exactly the order the index returned the matches, and the
returned source list is the element-wise projection (`sourceOf`) of the
matches in that same order. -/
theorem sources_rank_order (gen : String → String) (question : String)
    (ms : List Match) (h : ms ≠ []) :
    (collectContextsSources ms).1 = ms.map (fun m => contextBlock m.metadata) ∧
    (generate_answer gen question ms).2 = ms.map sourceOf := by
  have hc := collectContextsSources_eq ms
  constructor
  · rw [hc]
  · have hne : ms.isEmpty = false := by
      cases ms with
      | nil => exact absurd rfl h
      | cons a l => rfl
    simp [generate_answer, hne, hc]

theorem sources_rank_order_witness :
    ([mSmall, mEmptyMeta] : List Match) ≠ [] ∧
    (collectContextsSources [mSmall, mEmptyMeta]).1 =
      [mSmall, mEmptyMeta].map (fun m => contextBlock m.metadata) ∧
    (generate_answer (fun s => s) "q" [mSmall, mEmptyMeta]).2 =
      [mSmall, mEmptyMeta].map sourceOf :=
  ⟨by decide,
   sources_rank_order (fun s => s) "q" [mSmall, mEmptyMeta] (by decide)⟩

/-- C9: truncation only affects the prompt, never the sources — for every
non-empty match list the returned source list has exactly one entry per
match, regardless of how many context blocks the budget loop dropped. -/
theorem sources_length_invariant (gen : String → String) (question : String)
    (ms : List Match) (h : ms ≠ []) :
    ((generate_answer gen question ms).2).length = ms.length := by
  have hne : ms.isEmpty = false := by
    cases ms with
    | nil => exact absurd rfl h
    | cons a l => rfl
  simp [generate_answer, hne, collectContextsSources_eq ms]

theorem sources_length_invariant_witness :
    ([matchBig1, matchBig2] : List Match) ≠ [] ∧
    ((generate_answer (fun s => s) "" [matchBig1, matchBig2]).2).length =
      ([matchBig1, matchBig2] : List Match).length :=
  ⟨by simp,
   sources_length_invariant (fun s => s) "" [matchBig1, matchBig2] (by simp)⟩

/-- C10: the defaults for missing metadata in a returned source are
asymmetric — a missing subject, from or date key becomes the literal
`N/A`, while a missing snippet key becomes the empty string, never
`N/A`. -/
theorem source_defaults_asymmetric (m1 m2 m3 m4 : Match)
    (h1 : m1.metadata.subject = none) (h2 : m2.metadata.from_ = none)
    (h3 : m3.metadata.date = none) (h4 : m4.metadata.snippet = none) :
    (sourceOf m1).subject = "N/A" ∧ (sourceOf m2).from_ = "N/A" ∧
    (sourceOf m3).date = "N/A" ∧
    ((sourceOf m4).snippet = "" ∧ (sourceOf m4).snippet ≠ "N/A") := by
  refine ⟨?_, ?_, ?_, ?_, ?_⟩ <;>
    simp [sourceOf, h1, h2, h3, h4, Option.getD]

theorem source_defaults_asymmetric_witness :
    mEmptyMeta.metadata.subject = none ∧
    mEmptyMeta.metadata.from_ = none ∧
    mEmptyMeta.metadata.date = none ∧
    mEmptyMeta.metadata.snippet = none ∧
    ((sourceOf mEmptyMeta).subject = "N/A" ∧
     (sourceOf mEmptyMeta).from_ = "N/A" ∧
     (sourceOf mEmptyMeta).date = "N/A" ∧
     ((sourceOf mEmptyMeta).snippet = "" ∧
      (sourceOf mEmptyMeta).snippet ≠ "N/A")) :=
  ⟨rfl, rfl, rfl, rfl,
   source_defaults_asymmetric mEmptyMeta mEmptyMeta mEmptyMeta mEmptyMeta
     rfl rfl rfl rfl⟩

/-- C8 (amended): `extract_email_body` searches depth-first, parts before
multipart recursion, and returns the cleaned decoded text of the first
`text/plain` leaf — provided every leaf in the tree cleans to non-empty
text (and it returns the empty string when no leaf exists).  Without that
proviso the first-match property fails: a leaf reached through multipart
recursion whose cleaned text is empty is skipped and the search goes on. -/
theorem extract_email_body_first_leaf (dc : String → String) (p : Payload)
    (h : ∀ d ∈ dfsLeaves p, dc d ≠ "") :
    extract_email_body dc p = ((dfsLeaves p).head?.map dc).getD "" := by
  refine extract_email_body.induct dc
    (fun p => (∀ d ∈ dfsLeaves p, dc d ≠ "") →
      extract_email_body dc p = ((dfsLeaves p).head?.map dc).getD "")
    (fun ps => (∀ d ∈ dfsLeavesOfParts ps, dc d ≠ "") →
      searchParts dc ps = ((dfsLeavesOfParts ps).head?.map dc).getD "")
    ?_ ?_ ?_ ?_ ?_ ?_ ?_ ?_ p h
  · -- node with a parts list: delegate to the parts search
    intro m a parts ih hall
    simp only [extract_email_body, dfsLeaves] at hall ⊢
    exact ih hall
  · -- single-part node that is a text/plain leaf with data
    intro m a hcond hall
    simp only [extract_email_body, dfsLeaves, if_pos hcond]
    rfl
  · -- single-part node that is not a matching leaf
    intro m a hcond hall
    simp only [extract_email_body, dfsLeaves, if_neg hcond]
    rfl
  · -- empty parts list
    intro hall
    rfl
  · -- first part is a direct text/plain leaf with data
    intro part rest hcond hall
    simp only [searchParts, dfsLeavesOfParts, if_pos hcond]
    rfl
  · -- first part is multipart and its recursive text is non-empty
    intro part rest hcond1 hcond2 text htext ih1 hall
    have htext2 : extract_email_body dc part ≠ "" := htext
    simp only [dfsLeavesOfParts, if_neg hcond1, hcond2, if_true] at hall ⊢
    have hpart : ∀ d ∈ dfsLeaves part, dc d ≠ "" := fun d hd =>
      hall d (List.mem_append_left _ hd)
    have he := ih1 hpart
    rcases hleaves : dfsLeaves part with _ | ⟨d, ds⟩
    · rw [hleaves] at he
      exact absurd he htext2
    · rw [hleaves] at he
      simp only [searchParts, if_neg hcond1, hcond2, if_true]
      rw [if_pos htext2, he]
      simp
  · -- first part is multipart but its recursive text is empty
    intro part rest hcond1 hcond2 text htext ih1 ih2 hall
    have htext2 : ¬ extract_email_body dc part ≠ "" := htext
    simp only [dfsLeavesOfParts, if_neg hcond1, hcond2, if_true] at hall ⊢
    have hpart : ∀ d ∈ dfsLeaves part, dc d ≠ "" := fun d hd =>
      hall d (List.mem_append_left _ hd)
    have he := ih1 hpart
    rcases hleaves : dfsLeaves part with _ | ⟨d, ds⟩
    · simp only [List.nil_append]
      simp only [searchParts, if_neg hcond1, hcond2, if_true]
      rw [if_neg htext2]
      exact ih2 (fun d hd => hall d (List.mem_append_right _ hd))
    · rw [hleaves] at he
      have hd : dc d ≠ "" :=
        hall d (List.mem_append_left _
          (by rw [hleaves]; exact List.mem_cons_self d ds))
      have hdc : extract_email_body dc part = dc d := by rw [he]; rfl
      have hz : extract_email_body dc part = "" := not_not.mp htext2
      rw [hdc] at hz
      exact absurd hz hd
  · -- first part is neither a matching leaf nor multipart
    intro part rest hcond1 hcond2 ih hall
    simp only [dfsLeavesOfParts, if_neg hcond1] at hall ⊢
    rw [if_neg (by simpa using hcond2)] at hall ⊢
    simp only [List.nil_append] at hall ⊢
    simp only [searchParts, if_neg hcond1]
    rw [if_neg (by simpa using hcond2)]
    exact ih hall

theorem startsWith_multipart_alt :
    ("multipart/alternative".startsWith "multipart/") = true := by
  simp +decide [String.startsWith, Substring.take, String.toSubstring,
    Substring.nextn, Substring.next, String.next, Substring.beq,
    String.substrEq, String.substrEq.loop, String.get, String.utf8GetAux,
    String.endPos, String.utf8ByteSize, Char.utf8Size, BEq.beq,
    Substring.hasBeq, Substring.bsize, String.Pos.add_byteIdx]

theorem dfsLeaves_pW : dfsLeaves pW = ["B"] := by
  simp [pW, pLeafB, dfsLeaves, dfsLeavesOfParts, Payload.mimeType,
    Payload.bodyData]

theorem extract_email_body_first_leaf_witness :
    extract_email_body (fun s => s) pW =
      ((dfsLeaves pW).head?.map (fun s => s)).getD "" :=
  extract_email_body_first_leaf (fun s => s) pW (by
    intro d hd
    rw [dfsLeaves_pW] at hd
    simp at hd
    subst hd
    decide)

/-- C8 counterexample: in `pCex` the first plain-text leaf in the claimed
depth-first order is the nested `pLeafA` (data `"A"`, which cleans to the
empty string), yet `extract_email_body` skips it and returns the text of
the second leaf `pLeafB` — not the cleaned text of the first leaf. -/
theorem extract_email_body_counterexample :
    extract_email_body dc0 pCex = "B" ∧
    ((dfsLeaves pCex).head?.map dc0).getD "" = "" ∧
    ("B" : String) ≠ "" := by
  refine ⟨?_, ?_, by decide⟩
  · simp [extract_email_body, searchParts, pCex, pInner, pLeafA, pLeafB, dc0,
      Payload.mimeType, Payload.bodyData]
  · simp [dfsLeaves, dfsLeavesOfParts, pCex, pInner, pLeafA, pLeafB, dc0,
      Payload.mimeType, Payload.bodyData, startsWith_multipart_alt]

end RAGGmail
